import Mathlib

/-!
Verification development for the cw20 fungible-token contract
(src/src/main.rs), a shallow embedding of its state and public operations.

Modelling decisions, recorded once here:

* `Uint128` values are `Nat`s; the checked arithmetic primitives of
  `cosmwasm_std::Uint128` fail exactly when the mathematical result leaves
  `[0, 2^128 - 1]`, which `checked_add` / `checked_sub` below reproduce.
* The storage buckets (`Bucket<Balance>`, `Bucket<Allowance>`) are
  association lists keyed by address (resp. address pair); `Bucket::save`
  overwrites the entry for a key, `Bucket::load` fails with a not-found
  error on a missing key, and `load(..).unwrap_or(default)` reads a
  missing key as the default, exactly as at each call site in the source.
* Modelled from the spec: the persistence of the scalar contract state
  (`owner`, `paused`, `reentrancy_guard`, `token_info`).  The source's
  `State::save` is commented out and `State::new` constructs the scalar
  fields with placeholder defaults, while `instantiate` builds the same
  conceptual entity with a map-backed shape — the spec's design notes call
  this a source-level inconsistency and prescribe one canonical persistent
  `ContractState` record (spec §3, §9).  We therefore model one persistent
  `ContractState` that every operation loads at entry, and each
  `state.save(...)` / bucket save in an operation body persists the
  corresponding field immediately at the point where the source performs
  it; an error aborts the operation but keeps every write already
  persisted by the operation (the host's transaction boundary is an
  external collaborator, spec §1, and claims are settled at core level).
* Responses (`cosmwasm_std::Response` attributes) carry no state and are
  irrelevant to every claim, so an operation returns its outcome
  (`ok` or the error it raised) paired with the persisted state.
-/

namespace CW20

/-- Addresses (`HumanAddr`) are opaque strings. -/
abbrev Addr := String

/-- Largest value representable by `cosmwasm_std::Uint128`. -/
def U128_MAX : Nat := 2 ^ 128 - 1

/-- `Uint128::checked_add`: fails when the sum exceeds `U128_MAX`. -/
def checked_add (a b : Nat) : Option Nat :=
  if a + b ≤ U128_MAX then some (a + b) else none

/-- `Uint128::checked_sub`: fails when the subtrahend exceeds the minuend. -/
def checked_sub (a b : Nat) : Option Nat :=
  if b ≤ a then some (a - b) else none

/-- `Bucket::load` / `HashMap::get`: first entry with the given key. -/
def alookup {α : Type} [DecidableEq α] : List (α × Nat) → α → Option Nat
  | [], _ => none
  | (k0, v0) :: rest, k => if k0 = k then some v0 else alookup rest k

/-- `Bucket::save` / `HashMap::insert`: overwrite the entry for a key,
appending a fresh entry when the key is absent. -/
def aset {α : Type} [DecidableEq α] : List (α × Nat) → α → Nat → List (α × Nat)
  | [], k, v => [(k, v)]
  | (k0, v0) :: rest, k, v =>
      if k0 = k then (k, v) :: rest else (k0, v0) :: aset rest k v

/-- `TokenInfo` (src/src/main.rs lines 6-12). -/
structure TokenInfo where
  name : String
  symbol : String
  decimals : Nat
  total_supply : Nat
deriving DecidableEq, Repr

/-- The canonical persistent contract state (struct `State`,
src/src/main.rs lines 39-46): scalar fields plus the two buckets.
`balances` stores each `Balance.amount` keyed by address; `allowances`
stores each `Allowance.allowance` keyed by `(owner, spender)` (the
redundant `owner`/`spender` fields inside the stored `Allowance` value
are determined by the key and carry no extra information). -/
structure ContractState where
  owner : Addr
  paused : Bool
  reentrancy_guard : Bool
  token_info : TokenInfo
  balances : List (Addr × Nat)
  allowances : List ((Addr × Addr) × Nat)
deriving DecidableEq, Repr

/-- The error taxonomy of the contract: the distinct
`StdError::generic_err` messages raised in src/src/main.rs, plus the
storage not-found error raised by a failing `Bucket::load(..)?` and the
overflow/underflow errors propagated from `Uint128` checked arithmetic. -/
inductive ContractError where
  | unauthorized
  | contractPaused
  | reentrantCall
  | insufficientBalance
  | insufficientAllowance
  | overflow
  | underflow
  | notFound
deriving DecidableEq, Repr

/-- Outcome of one operation: success, or the error that aborted it. -/
inductive OpOutcome where
  | ok
  | err (e : ContractError)
deriving DecidableEq, Repr

/-- `instantiate` (src/src/main.rs lines 123-150): builds the state with
`owner = info.sender`, both flags false, `TokenInfo` with
`total_supply = Uint128::zero()`, then inserts each initial balance into
the balances map.  Note the source never touches `total_supply` again. -/
def instantiate (sender : Addr) (initial_balances : List (Addr × Nat)) :
    ContractState :=
  { owner := sender
    paused := false
    reentrancy_guard := false
    token_info :=
      { name := "My Token", symbol := "MYT", decimals := 6, total_supply := 0 }
    balances := initial_balances.foldl (fun m b => aset m b.1 b.2) []
    allowances := [] }

/-- `query` (src/src/main.rs lines 162-170): balance of an address,
defaulting to zero for a missing entry. -/
def query_balance (st : ContractState) (a : Addr) : Nat :=
  (alookup st.balances a).getD 0

/-- Allowance read with the zero default used at every allowance call
site (`load(..).unwrap_or(Allowance { .. Uint128::zero() })`). -/
def allowance_of (st : ContractState) (owner spender : Addr) : Nat :=
  (alookup st.allowances (owner, spender)).getD 0

/-- `transfer` (src/src/main.rs lines 172-192).  The sender's balance is
read with a plain `load(..)?` (not-found error on a missing entry); the
recipient's with `unwrap_or(zero)`. -/
def transfer (st : ContractState) (sender recipient : Addr) (amount : Nat) :
    OpOutcome × ContractState :=
  match alookup st.balances sender with
  | none => (.err .notFound, st)
  | some sb =>
    if sb < amount then (.err .insufficientBalance, st)
    else
      match checked_sub sb amount with
      | none => (.err .underflow, st)
      | some sb2 =>
        let st1 : ContractState := { st with balances := aset st.balances sender sb2 }
        let rb := (alookup st1.balances recipient).getD 0
        match checked_add rb amount with
        | none => (.err .overflow, st1)
        | some rb2 => (.ok, { st1 with balances := aset st1.balances recipient rb2 })

/-- `approve` (src/src/main.rs lines 194-207): read the current
allowance with a zero default, `checked_add`, store. -/
def approve (st : ContractState) (sender spender : Addr) (amount : Nat) :
    OpOutcome × ContractState :=
  let cur := (alookup st.allowances (sender, spender)).getD 0
  match checked_add cur amount with
  | none => (.err .overflow, st)
  | some a2 => (.ok, { st with allowances := aset st.allowances (sender, spender) a2 })

/-- `transfer_from` (src/src/main.rs lines 209-245).  The allowance is
decreased and saved before the owner's balance is loaded and checked. -/
def transfer_from (st : ContractState) (sender owner recipient : Addr)
    (amount : Nat) : OpOutcome × ContractState :=
  let cur := (alookup st.allowances (owner, sender)).getD 0
  if cur < amount then (.err .insufficientAllowance, st)
  else
    match checked_sub cur amount with
    | none => (.err .underflow, st)
    | some a2 =>
      let st1 : ContractState :=
        { st with allowances := aset st.allowances (owner, sender) a2 }
      match alookup st1.balances owner with
      | none => (.err .notFound, st1)
      | some ob =>
        if ob < amount then (.err .insufficientBalance, st1)
        else
          match checked_sub ob amount with
          | none => (.err .underflow, st1)
          | some ob2 =>
            let st2 : ContractState :=
              { st1 with balances := aset st1.balances owner ob2 }
            let rb := (alookup st2.balances recipient).getD 0
            match checked_add rb amount with
            | none => (.err .overflow, st2)
            | some rb2 =>
              (.ok, { st2 with balances := aset st2.balances recipient rb2 })

/-- `decrease_allowance` (src/src/main.rs lines 247-267). -/
def decrease_allowance (st : ContractState) (sender spender : Addr)
    (amount : Nat) : OpOutcome × ContractState :=
  let cur := (alookup st.allowances (sender, spender)).getD 0
  if cur < amount then (.err .insufficientAllowance, st)
  else
    match checked_sub cur amount with
    | none => (.err .underflow, st)
    | some a2 =>
      (.ok, { st with allowances := aset st.allowances (sender, spender) a2 })

/-- `burn` (src/src/main.rs lines 269-288): debit the caller's balance
(plain `load?`, so a missing entry is a not-found error).  The source
never adjusts `total_supply` here. -/
def burn (st : ContractState) (sender : Addr) (amount : Nat) :
    OpOutcome × ContractState :=
  match alookup st.balances sender with
  | none => (.err .notFound, st)
  | some b =>
    if b < amount then (.err .insufficientBalance, st)
    else
      match checked_sub b amount with
      | none => (.err .underflow, st)
      | some b2 => (.ok, { st with balances := aset st.balances sender b2 })

/-- `mint` (src/src/main.rs lines 290-323): pause check, reentrancy
check, set & persist the guard, THEN the owner check; on the successful
path credit the recipient and clear the guard.  The Unauthorized exit
(and the overflow exit) returns with the guard still persisted as true,
exactly as in the source.  The source never adjusts `total_supply`. -/
def mint (st : ContractState) (sender recipient : Addr) (amount : Nat) :
    OpOutcome × ContractState :=
  if st.paused then (.err .contractPaused, st)
  else if st.reentrancy_guard then (.err .reentrantCall, st)
  else
    let st1 : ContractState := { st with reentrancy_guard := true }
    if sender ≠ st1.owner then (.err .unauthorized, st1)
    else
      let rb := (alookup st1.balances recipient).getD 0
      match checked_add rb amount with
      | none => (.err .overflow, st1)
      | some rb2 =>
        let st2 : ContractState := { st1 with balances := aset st1.balances recipient rb2 }
        (.ok, { st2 with reentrancy_guard := false })

/-- `pause` (src/src/main.rs lines 77-92). -/
def pause (st : ContractState) (sender : Addr) : OpOutcome × ContractState :=
  if sender ≠ st.owner then (.err .unauthorized, st)
  else (.ok, { st with paused := true })

/-- `unpause` (src/src/main.rs lines 94-109). -/
def unpause (st : ContractState) (sender : Addr) : OpOutcome × ContractState :=
  if sender ≠ st.owner then (.err .unauthorized, st)
  else (.ok, { st with paused := false })

/-- One public post-instantiation call, with its caller and arguments. -/
inductive Msg where
  | transferM (sender recipient : Addr) (amount : Nat)
  | approveM (sender spender : Addr) (amount : Nat)
  | transferFromM (sender owner recipient : Addr) (amount : Nat)
  | decreaseAllowanceM (sender spender : Addr) (amount : Nat)
  | mintM (sender recipient : Addr) (amount : Nat)
  | burnM (sender : Addr) (amount : Nat)
  | pauseM (sender : Addr)
  | unpauseM (sender : Addr)
deriving DecidableEq, Repr

/-- Dispatch one call to the corresponding operation. -/
def exec (st : ContractState) : Msg → OpOutcome × ContractState
  | .transferM s r a => transfer st s r a
  | .approveM s sp a => approve st s sp a
  | .transferFromM s o r a => transfer_from st s o r a
  | .decreaseAllowanceM s sp a => decrease_allowance st s sp a
  | .mintM s r a => mint st s r a
  | .burnM s a => burn st s a
  | .pauseM s => pause st s
  | .unpauseM s => unpause st s

/-- States reachable from a given initial state by any sequence of
public calls; a failing call still contributes the state it persisted. -/
inductive ReachableFrom (s0 : ContractState) : ContractState → Prop
  | refl : ReachableFrom s0 s0
  | step {st : ContractState} (m : Msg) :
      ReachableFrom s0 st → ReachableFrom s0 (exec st m).2

/-- States reachable from some instantiation. -/
def Reachable (st : ContractState) : Prop :=
  ∃ sender bal, ReachableFrom (instantiate sender bal) st

/-- The distinct addresses holding a balance entry. -/
def addrList (st : ContractState) : List Addr :=
  (st.balances.map Prod.fst).dedup

/-- Sum over all addresses of `balance_of(address)`: addresses without
an entry contribute zero, so the sum ranges over the entry keys. -/
def sumBalances (st : ContractState) : Nat :=
  ((addrList st).map fun a => query_balance st a).sum

/-- A state with a non-trivial supply on record, used to exhibit that
`burn` never touches `total_supply`: alice holds 60 tokens and the
recorded supply is 60, so supply and balance sum agree beforehand. -/
def c4_state : ContractState :=
  { owner := "owner"
    paused := false
    reentrancy_guard := false
    token_info :=
      { name := "My Token", symbol := "MYT", decimals := 6, total_supply := 60 }
    balances := [("alice", 60)]
    allowances := [] }

/-- Reachable state for the transfer_from failure scenario: instantiate
with alice holding 10, then alice approves bob for 50. -/
def c6_state : ContractState :=
  (approve (instantiate "owner" [("alice", 10)]) "alice" "bob" 50).2

/-- State after one `approve("alice" → "bob", 2^127)` on a fresh
contract, used for the approve-overflow counterexample. -/
def c8_state : ContractState :=
  (approve (instantiate "owner" []) "alice" "bob" (2 ^ 127)).2

/-! ### Association-list lemmas -/

theorem alookup_aset_self {α : Type} [DecidableEq α] (l : List (α × Nat))
    (k : α) (v : Nat) : alookup (aset l k v) k = some v := by
  induction l with
  | nil => simp [aset, alookup]
  | cons p rest ih =>
      obtain ⟨k0, v0⟩ := p
      by_cases h : k0 = k <;> simp [aset, alookup, h, ih]

theorem alookup_aset_ne {α : Type} [DecidableEq α] (l : List (α × Nat))
    {k k2 : α} (v : Nat) (h : k2 ≠ k) :
    alookup (aset l k v) k2 = alookup l k2 := by
  induction l with
  | nil => simp [aset, alookup, Ne.symm h]
  | cons p rest ih =>
      obtain ⟨k0, v0⟩ := p
      by_cases h0 : k0 = k
      · subst h0
        simp [aset, alookup, Ne.symm h]
      · simp [aset, alookup, h0, ih]

theorem aset_of_alookup_eq {α : Type} [DecidableEq α] (l : List (α × Nat))
    {k : α} {v : Nat} (h : alookup l k = some v) : aset l k v = l := by
  induction l with
  | nil => simp [alookup] at h
  | cons p rest ih =>
      obtain ⟨k0, v0⟩ := p
      by_cases h0 : k0 = k
      · subst h0
        simp [alookup] at h
        simp [aset, h]
      · simp [alookup, h0] at h
        simp [aset, h0, ih h]

theorem aset_aset_self {α : Type} [DecidableEq α] (l : List (α × Nat))
    (k : α) (v1 v2 : Nat) : aset (aset l k v1) k v2 = aset l k v2 := by
  induction l with
  | nil => simp [aset]
  | cons p rest ih =>
      obtain ⟨k0, v0⟩ := p
      by_cases h0 : k0 = k <;> simp [aset, h0, ih]

/-! ### Frame lemmas: no operation modifies `owner` or `token_info` -/

theorem transfer_owner_token (st : ContractState) (s r : Addr) (a : Nat) :
    (transfer st s r a).2.owner = st.owner ∧
      (transfer st s r a).2.token_info = st.token_info := by
  unfold transfer
  try dsimp only
  repeat' split
  all_goals exact ⟨rfl, rfl⟩

theorem approve_owner_token (st : ContractState) (s sp : Addr) (a : Nat) :
    (approve st s sp a).2.owner = st.owner ∧
      (approve st s sp a).2.token_info = st.token_info := by
  unfold approve
  try dsimp only
  repeat' split
  all_goals exact ⟨rfl, rfl⟩

theorem transfer_from_owner_token (st : ContractState) (s o r : Addr) (a : Nat) :
    (transfer_from st s o r a).2.owner = st.owner ∧
      (transfer_from st s o r a).2.token_info = st.token_info := by
  unfold transfer_from
  try dsimp only
  repeat' split
  all_goals exact ⟨rfl, rfl⟩

theorem decrease_allowance_owner_token (st : ContractState) (s sp : Addr)
    (a : Nat) :
    (decrease_allowance st s sp a).2.owner = st.owner ∧
      (decrease_allowance st s sp a).2.token_info = st.token_info := by
  unfold decrease_allowance
  try dsimp only
  repeat' split
  all_goals exact ⟨rfl, rfl⟩

theorem burn_owner_token (st : ContractState) (s : Addr) (a : Nat) :
    (burn st s a).2.owner = st.owner ∧
      (burn st s a).2.token_info = st.token_info := by
  unfold burn
  try dsimp only
  repeat' split
  all_goals exact ⟨rfl, rfl⟩

theorem mint_owner_token (st : ContractState) (s r : Addr) (a : Nat) :
    (mint st s r a).2.owner = st.owner ∧
      (mint st s r a).2.token_info = st.token_info := by
  unfold mint
  try dsimp only
  repeat' split
  all_goals exact ⟨rfl, rfl⟩

theorem pause_owner_token (st : ContractState) (s : Addr) :
    (pause st s).2.owner = st.owner ∧
      (pause st s).2.token_info = st.token_info := by
  unfold pause
  try dsimp only
  repeat' split
  all_goals exact ⟨rfl, rfl⟩

theorem unpause_owner_token (st : ContractState) (s : Addr) :
    (unpause st s).2.owner = st.owner ∧
      (unpause st s).2.token_info = st.token_info := by
  unfold unpause
  try dsimp only
  repeat' split
  all_goals exact ⟨rfl, rfl⟩

theorem exec_owner_token (st : ContractState) (m : Msg) :
    (exec st m).2.owner = st.owner ∧
      (exec st m).2.token_info = st.token_info := by
  cases m with
  | transferM s r a => exact transfer_owner_token st s r a
  | approveM s sp a => exact approve_owner_token st s sp a
  | transferFromM s o r a => exact transfer_from_owner_token st s o r a
  | decreaseAllowanceM s sp a => exact decrease_allowance_owner_token st s sp a
  | mintM s r a => exact mint_owner_token st s r a
  | burnM s a => exact burn_owner_token st s a
  | pauseM s => exact pause_owner_token st s
  | unpauseM s => exact unpause_owner_token st s

/-- Reachability preserves `owner` and `token_info`: they are written
only at instantiation. -/
theorem reachableFrom_owner_token {s0 st : ContractState}
    (h : ReachableFrom s0 st) :
    st.owner = s0.owner ∧ st.token_info = s0.token_info := by
  induction h with
  | refl => exact ⟨rfl, rfl⟩
  | step m _ ih =>
      obtain ⟨h1, h2⟩ := exec_owner_token _ m
      exact ⟨h1.trans ih.1, h2.trans ih.2⟩

/-! ### Claim theorems -/

/-- C1: the claimed invariant `total_supply = Σ balance_of` fails on the
code.  The state reached by instantiating with initial balances
`[(alice, 100)]` is reachable, its balance sum is 100, yet its
`total_supply` is 0 — no operation of the source ever writes
`total_supply`, so the invariant is already broken at instantiation. -/
theorem c1_supply_invariant_violated :
    Reachable (instantiate "deployer" [("alice", 100)]) ∧
    sumBalances (instantiate "deployer" [("alice", 100)]) = 100 ∧
    (instantiate "deployer" [("alice", 100)]).token_info.total_supply = 0 ∧
    (instantiate "deployer" [("alice", 100)]).token_info.total_supply ≠
      sumBalances (instantiate "deployer" [("alice", 100)]) :=
  ⟨⟨"deployer", [("alice", 100)], .refl⟩, by decide, by decide, by decide⟩

/-- C2: a mint call from non-owner "alice" on a fresh contract fails
with Unauthorized, as the claim says, but the persisted state has
`reentrancy_guard = true` — the guard is set and saved before the owner
check and never cleared on that exit path, so a subsequent mint by the
real owner fails with ReentrantCall (the permanent lock-out the spec's
design notes describe). -/
theorem c2_mint_guard_left_set :
    (mint (instantiate "owner" []) "alice" "bob" 5).1 =
      .err .unauthorized ∧
    (mint (instantiate "owner" []) "alice" "bob" 5).2.reentrancy_guard = true ∧
    (mint (mint (instantiate "owner" []) "alice" "bob" 5).2 "owner" "bob" 5).1 =
      .err .reentrantCall := by
  decide

/-- C3: instantiate with `initial_balances = [(alice, 100)]` does credit
alice with 100 (`query_balance` returns 100), but `total_supply` is left
at the literal `Uint128::zero()` of the `TokenInfo` constructor — the
source never adds the credited amounts to the supply, so `total_supply`
is 0, not the claimed 100. -/
theorem c3_instantiate_supply_zero :
    query_balance (instantiate "deployer" [("alice", 100)]) "alice" = 100 ∧
    (instantiate "deployer" [("alice", 100)]).token_info.total_supply = 0 ∧
    (instantiate "deployer" [("alice", 100)]).token_info.total_supply ≠ 100 := by
  decide

/-- C4: burn with sufficient balance succeeds and debits the caller
(alice's 60 drop to 0), and burn with insufficient balance fails with
InsufficientBalance, but `total_supply` is not decreased: the source's
`burn` never touches `TokenInfo`, so the supply stays at 60 where the
claim requires 0. -/
theorem c4_burn_ignores_supply :
    (burn c4_state "alice" 60).1 = .ok ∧
    query_balance (burn c4_state "alice" 60).2 "alice" = 0 ∧
    (burn (burn c4_state "alice" 60).2 "alice" 1).1 =
      .err .insufficientBalance ∧
    (burn c4_state "alice" 60).2.token_info.total_supply = 60 ∧
    (burn c4_state "alice" 60).2.token_info.total_supply ≠ 0 := by
  decide

/-- C6: a failing operation does not leave the state unchanged.  From
the reachable state where alice holds 10 and has approved bob for 50,
bob's `transfer_from(alice, carol, 30)` fails with InsufficientBalance,
but the (alice, bob) allowance — 50 before the call — has been decreased
and persisted as 20, because the source saves the decreased allowance
before loading and checking the owner's balance. -/
theorem c6_transfer_from_persists_allowance :
    Reachable c6_state ∧
    allowance_of c6_state "alice" "bob" = 50 ∧
    query_balance c6_state "alice" = 10 ∧
    (transfer_from c6_state "bob" "alice" "carol" 30).1 =
      .err .insufficientBalance ∧
    allowance_of (transfer_from c6_state "bob" "alice" "carol" 30).2
      "alice" "bob" = 20 :=
  ⟨⟨"owner", [("alice", 10)],
      .step (.approveM "alice" "bob" 50) .refl⟩,
    by decide, by decide, by decide, by decide⟩

/-- C5: in every state reachable from an instantiation by `sender`,
`pause` (resp. `unpause`) succeeds and sets `paused` to true (resp.
false) exactly when the caller is that instantiation owner (the owner is
never rewritten by any operation); any other caller gets Unauthorized
and the state is returned unchanged. -/
theorem c5_pause_unpause_owner_only (sender : Addr) (bal : List (Addr × Nat))
    (st : ContractState) (h : ReachableFrom (instantiate sender bal) st)
    (caller : Addr) :
    (caller = sender →
        pause st caller = (.ok, { st with paused := true }) ∧
        unpause st caller = (.ok, { st with paused := false })) ∧
    (caller ≠ sender →
        pause st caller = (.err .unauthorized, st) ∧
        unpause st caller = (.err .unauthorized, st)) := by
  have hown : st.owner = sender := (reachableFrom_owner_token h).1
  constructor
  · intro hc
    simp [pause, unpause, hown, hc]
  · intro hc
    simp [pause, unpause, hown, hc]

/-- Witness for C5 at a concrete reachable state: on the freshly
instantiated contract, the owner's `pause` succeeds and a stranger's
`pause` fails with Unauthorized. -/
theorem c5_witness :
    pause (instantiate "owner" []) "owner" =
      (.ok, { instantiate "owner" [] with paused := true }) ∧
    pause (instantiate "owner" []) "mallory" =
      (.err .unauthorized, instantiate "owner" []) :=
  ⟨((c5_pause_unpause_owner_only "owner" [] _ .refl "owner").1 rfl).1,
    ((c5_pause_unpause_owner_only "owner" [] _ .refl "mallory").2
      (by decide)).1⟩

/-- C8 counterexample: at `X = 2^127` on a fresh contract, the first
`approve` succeeds but the second fails with ArithmeticOverflow
(`2^128 > Uint128::MAX`) and leaves the allowance at `2^127`, not the
claimed `2 * X`. -/
theorem c8_counterexample :
    (approve (instantiate "owner" []) "alice" "bob" (2 ^ 127)).1 = .ok ∧
    (approve c8_state "alice" "bob" (2 ^ 127)).1 = .err .overflow ∧
    allowance_of (approve c8_state "alice" "bob" (2 ^ 127)).2 "alice" "bob" =
      2 ^ 127 ∧
    (2 ^ 127 : Nat) ≠ 2 * 2 ^ 127 := by
  decide

/-- C8 (amended): whenever the current allowance is zero and `2 * X`
does not exceed `Uint128::MAX`, two sequential `approve(spender, X)`
calls from the same owner both succeed and leave
`allowance_of(owner, spender) = 2 * X`: approve is additive, not an
overwrite. -/
theorem c8_approve_additive (st : ContractState) (owner spender : Addr)
    (X : Nat) (h0 : allowance_of st owner spender = 0)
    (h1 : 2 * X ≤ U128_MAX) :
    (approve st owner spender X).1 = .ok ∧
    (approve (approve st owner spender X).2 owner spender X).1 = .ok ∧
    allowance_of (approve (approve st owner spender X).2 owner spender X).2
      owner spender = 2 * X := by
  have h0' : (alookup st.allowances (owner, spender)).getD 0 = 0 := h0
  have hX1 : checked_add ((alookup st.allowances (owner, spender)).getD 0) X =
      some X := by
    simp [checked_add, h0']
    omega
  have hself : (alookup (aset st.allowances (owner, spender) X)
      (owner, spender)).getD 0 = X := by
    rw [alookup_aset_self]
    rfl
  have hX2 : checked_add X X = some (X + X) := by
    simp [checked_add]
    omega
  refine ⟨?_, ?_, ?_⟩
  · simp [approve, hX1]
  · simp [approve, hX1, hself, hX2]
  · simp [approve, allowance_of, hX1, hself, hX2, aset_aset_self,
      alookup_aset_self]
    omega

/-- Witness for C8 (amended) at `X = 5` on a fresh contract. -/
theorem c8_witness :
    allowance_of
      (approve (approve (instantiate "owner" []) "alice" "bob" 5).2
        "alice" "bob" 5).2 "alice" "bob" = 2 * 5 :=
  (c8_approve_additive (instantiate "owner" []) "alice" "bob" 5
    (by decide) (by decide)).2.2

/-- C10 counterexample: the claim as stated fails for a caller with no
balance entry.  Under the spec's zero-default balance semantics an
absent entry reads as 0, so a caller with no entry and `amount = 0`
"has balance at least amount" (0 ≥ 0) and the claim requires the
self-transfer to succeed and change nothing; the code instead fails with
the storage not-found error, because the sender's balance is read with a
plain `load(..)?`. -/
theorem c10_counterexample :
    query_balance (instantiate "owner" []) "alice" = 0 ∧
    0 ≤ query_balance (instantiate "owner" []) "alice" ∧
    (transfer (instantiate "owner" []) "alice" "alice" 0).1 =
      .err .notFound ∧
    (transfer (instantiate "owner" []) "alice" "alice" 0).1 ≠ .ok := by
  decide

/-- C10 (amended): a self-transfer by a caller with a stored balance
entry is a no-op.  If the caller has a balance entry of `b ≥ amount`
(with `b` within the `Uint128` range, as every stored balance is),
`transfer(caller, amount)` with recipient equal to the caller succeeds
and returns exactly the pre-call state: the debit writes `b - amount`
and the credit immediately writes back `(b - amount) + amount = b`.
A caller with no stored entry is excluded: there the call fails with the
storage not-found error even when the zero-defaulting balance is at
least `amount` (see the counterexample above). -/
theorem c10_self_transfer_noop (st : ContractState) (caller : Addr)
    (amount b : Nat) (hb : alookup st.balances caller = some b)
    (hle : amount ≤ b) (hmax : b ≤ U128_MAX) :
    transfer st caller caller amount = (.ok, st) := by
  have hlt : ¬ b < amount := Nat.not_lt.mpr hle
  have hsub : checked_sub b amount = some (b - amount) := by
    simp [checked_sub, hle]
  have hself : (alookup (aset st.balances caller (b - amount)) caller).getD 0 =
      b - amount := by
    rw [alookup_aset_self]
    rfl
  have hadd : checked_add (b - amount) amount = some b := by
    simp [checked_add]
    omega
  simp [transfer, hb, hlt, hsub, hself, hadd, aset_aset_self,
    aset_of_alookup_eq _ hb]

/-- Witness for C10: alice self-transfers 30 of her 100 tokens on a
fresh contract and the state is unchanged. -/
theorem c10_witness :
    transfer (instantiate "owner" [("alice", 100)]) "alice" "alice" 30 =
      (.ok, instantiate "owner" [("alice", 100)]) :=
  c10_self_transfer_noop (instantiate "owner" [("alice", 100)]) "alice" 30 100
    (by decide) (by decide) (by decide)

/-- C7 counterexample: on a fresh contract, "alice" has no balance entry
so `balance_of(alice) = 0` and `0 < 0` is false, hence the claim says
`transfer("bob", 0)` from alice must succeed; the code instead fails
with the storage not-found error, because the sender's balance is read
with a plain `load(..)?` rather than with the zero default. -/
theorem c7_counterexample :
    query_balance (instantiate "owner" []) "alice" = 0 ∧
    ¬ query_balance (instantiate "owner" []) "alice" < 0 ∧
    (transfer (instantiate "owner" []) "alice" "bob" 0).1 = .err .notFound ∧
    (transfer (instantiate "owner" []) "alice" "bob" 0).1 ≠ .ok := by
  decide

/-- C7 (amended): the exact failure modes of `transfer`.  It fails with
the storage not-found error iff the sender has no balance entry; with
InsufficientBalance iff the sender has an entry smaller than `amount`;
and succeeds iff the sender has an entry `b ≥ amount` and the
recipient's credited balance stays within the `Uint128` range (for a
self-transfer that credited balance is `b` itself).  In particular
InsufficientBalance is measured against the stored entry, not against
the zero-defaulting `balance_of`, and overflow on the credit is a
further failure mode. -/
theorem c7_transfer_failure_modes (st : ContractState)
    (sender recipient : Addr) (amount : Nat) :
    ((transfer st sender recipient amount).1 = .err .notFound ↔
        alookup st.balances sender = none) ∧
    ((transfer st sender recipient amount).1 = .err .insufficientBalance ↔
        ∃ b, alookup st.balances sender = some b ∧ b < amount) ∧
    ((transfer st sender recipient amount).1 = .ok ↔
        ∃ b, alookup st.balances sender = some b ∧ amount ≤ b ∧
          (if recipient = sender then b ≤ U128_MAX
           else query_balance st recipient + amount ≤ U128_MAX)) := by
  rcases hb : alookup st.balances sender with _ | b
  · simp [transfer, hb]
  · by_cases hlt : b < amount
    · refine ⟨?_, ?_, ?_⟩
      · simp [transfer, hb, hlt]
      · simp [transfer, hb, hlt]
      · simp [transfer, hb, hlt]
    · have hle : amount ≤ b := Nat.le_of_not_lt hlt
      have hsub : checked_sub b amount = some (b - amount) := by
        simp [checked_sub, hle]
      by_cases hr : recipient = sender
      · subst hr
        have hself : (alookup (aset st.balances recipient (b - amount))
            recipient).getD 0 = b - amount := by
          rw [alookup_aset_self]
          rfl
        by_cases hmax : b ≤ U128_MAX
        · have hadd : checked_add (b - amount) amount = some b := by
            simp [checked_add]
            omega
          refine ⟨?_, ?_, ?_⟩
          · simp [transfer, hb, hlt, hsub, hself, hadd]
          · simp [transfer, hb, hlt, hsub, hself, hadd]
          · simp [transfer, hb, hlt, hsub, hself, hadd, hle, hmax]
        · have hadd : checked_add (b - amount) amount = none := by
            simp [checked_add]
            omega
          refine ⟨?_, ?_, ?_⟩
          · simp [transfer, hb, hlt, hsub, hself, hadd]
          · simp [transfer, hb, hlt, hsub, hself, hadd]
          · simp [transfer, hb, hlt, hsub, hself, hadd]
            omega
      · have hrb : (alookup (aset st.balances sender (b - amount))
            recipient).getD 0 = query_balance st recipient := by
          rw [alookup_aset_ne _ _ hr]
          rfl
        by_cases hmax : query_balance st recipient + amount ≤ U128_MAX
        · have hadd : checked_add (query_balance st recipient) amount =
              some (query_balance st recipient + amount) := by
            simp [checked_add, hmax]
          refine ⟨?_, ?_, ?_⟩
          · simp [transfer, hb, hlt, hsub, hrb, hadd]
          · simp [transfer, hb, hlt, hsub, hrb, hadd]
          · simp [transfer, hb, hlt, hsub, hrb, hadd, hle, hr, hmax]
        · have hadd : checked_add (query_balance st recipient) amount =
              none := by
            simp [checked_add, hmax]
          refine ⟨?_, ?_, ?_⟩
          · simp [transfer, hb, hlt, hsub, hrb, hadd]
          · simp [transfer, hb, hlt, hsub, hrb, hadd]
          · simp [transfer, hb, hlt, hsub, hrb, hadd, hr]
            omega

/-- C9: a successful transfer between two distinct addresses moves
exactly `amount` from the sender to the recipient and changes nothing
else: the sender's balance drops by `amount`, the recipient's rises by
`amount`, every third address keeps its balance, and the allowance map
and `total_supply` are untouched. -/
theorem c9_transfer_effects (st st2 : ContractState)
    (sender recipient : Addr) (amount : Nat) (hne : sender ≠ recipient)
    (h : transfer st sender recipient amount = (.ok, st2)) :
    amount ≤ query_balance st sender ∧
    query_balance st2 sender = query_balance st sender - amount ∧
    query_balance st2 recipient = query_balance st recipient + amount ∧
    (∀ a : Addr, a ≠ sender → a ≠ recipient →
        query_balance st2 a = query_balance st a) ∧
    st2.allowances = st.allowances ∧
    st2.token_info.total_supply = st.token_info.total_supply := by
  rcases hb : alookup st.balances sender with _ | b
  · simp [transfer, hb] at h
  · by_cases hlt : b < amount
    · simp [transfer, hb, hlt] at h
    · have hle : amount ≤ b := Nat.le_of_not_lt hlt
      have hsub : checked_sub b amount = some (b - amount) := by
        simp [checked_sub, hle]
      have hrb : (alookup (aset st.balances sender (b - amount))
          recipient).getD 0 = query_balance st recipient := by
        rw [alookup_aset_ne _ _ (Ne.symm hne)]
        rfl
      rcases hadd : checked_add (query_balance st recipient) amount
        with _ | rb2
      · simp [transfer, hb, hlt, hsub, hrb, hadd] at h
      · have hrb2 : rb2 = query_balance st recipient + amount := by
          unfold checked_add at hadd
          split at hadd
          · exact (Option.some.inj hadd).symm
          · exact absurd hadd (by simp)
        have hst2 : ({ st with balances := aset (aset st.balances sender (b - amount)) recipient rb2 } : ContractState) = st2 := by
          simpa [transfer, hb, hlt, hsub, hrb, hadd] using h
        subst hst2
        refine ⟨?_, ?_, ?_, ?_, rfl, rfl⟩
        · simp [query_balance, hb]
          exact hle
        · simp only [query_balance]
          rw [alookup_aset_ne _ _ hne, alookup_aset_self]
          simp [hb]
        · simp only [query_balance]
          rw [alookup_aset_self]
          simp [hrb2, query_balance]
        · intro a ha1 ha2
          simp only [query_balance]
          rw [alookup_aset_ne _ _ ha2, alookup_aset_ne _ _ ha1]

/-- Witness for C9: scenario B — alice (100 tokens) transfers 40 to
bob; bob's balance rises by exactly 40. -/
theorem c9_witness :
    query_balance
        (transfer (instantiate "owner" [("alice", 100)]) "alice" "bob" 40).2
        "bob" =
      query_balance (instantiate "owner" [("alice", 100)]) "bob" + 40 :=
  (c9_transfer_effects (instantiate "owner" [("alice", 100)])
      (transfer (instantiate "owner" [("alice", 100)]) "alice" "bob" 40).2
      "alice" "bob" 40 (by decide) (by decide)).2.2.1

end CW20
